import Mathlib

/-!
Shallow embedding of the neuroevolution engine of `arm-hand-ai`
(src/bin/eval.rs, src/base_ai.rs, src/ai.rs, src/small_ai.rs).

Tensors are modelled as lists of rationals (one entry per element, in
row-major order); the random draws the code makes (`random_like`,
`rand::random_range`) are passed in explicitly as parameters, so every
function is a pure function of the code's inputs plus its random stream.
A Rust panic is modelled as `Option.none`.
-/

/-- Constants from src/bin/eval.rs lines 13-17. -/
def BEST_PROPORTION : ℚ := 1/4

def ISLAND_POPULATION : Nat := 100

def ALWAYS_RAND_COUNT : Nat := 3

def SMALLEST_SD : ℚ := 1/100

/-- burn's `Distribution` values used by the engine (`Normal(mean, sd)`). -/
inductive Distr where
  | Normal : ℚ → ℚ → Distr
deriving DecidableEq, Repr

/-- Model of `tensor.lower_elem(c)`: elementwise `x < c` mask. -/
def lower_elem (t : List ℚ) (c : ℚ) : List Bool :=
  t.map (fun x => decide (x < c))

/-- Model of `tensor.greater_equal_elem(c)`: elementwise `x ≥ c` mask. -/
def greater_equal_elem (t : List ℚ) (c : ℚ) : List Bool :=
  t.map (fun x => decide (c ≤ x))

/-- Model of `tensor.zeros_like()`. -/
def zeros_like (t : List ℚ) : List ℚ :=
  t.map (fun _ => 0)

/-- burn's `t.mask_where(mask, value)`: entries where the mask is true are
taken from `value`, the rest stay entries of `t`. -/
def mask_where (t : List ℚ) (mask : List Bool) (value : List ℚ) : List ℚ :=
  List.zipWith (fun p m => if m then p.2 else p.1) (t.zip value) mask

/-- Elementwise tensor addition. -/
def addT (a b : List ℚ) : List ℚ :=
  List.zipWith (fun x y => x + y) a b

/-- src/base_ai.rs `interleave` (lines 72-85): `baseline` stands for the
uniform `[0,1)` draw `a.random_like(Uniform(0.,1.))`; the two masks are
`baseline < 0.5` and `baseline ≥ 0.5`, each parent is zeroed where its
mask holds, and the results are summed. -/
def interleave (a b baseline : List ℚ) : List ℚ :=
  let a_mask := lower_elem baseline (1/2)
  let b_mask := greater_equal_elem baseline (1/2)
  let a_vals := mask_where a a_mask (zeros_like a)
  let b_vals := mask_where b b_mask (zeros_like b)
  addT a_vals b_vals

/-- The reproduction operator chosen by `make_offspring`. -/
inductive ReproMode where
  | iw | aw | combine | layers | jiggleMother | jiggleFather
deriving DecidableEq, Repr

/-- src/bin/eval.rs `make_offspring` (lines 210-224): the match on
`rand::random_range(0..15)`; `none` models the `unreachable!()` arm. -/
def make_offspring_mode (r : Nat) : Option ReproMode :=
  if r ≤ 4 then some ReproMode.iw
  else if r ≤ 8 then some ReproMode.aw
  else if r = 9 then some ReproMode.combine
  else if r = 10 then some ReproMode.layers
  else if r ≤ 12 then some ReproMode.jiggleMother
  else if r ≤ 14 then some ReproMode.jiggleFather
  else none

/-- The reject-and-resample loop of `make_distinct` (src/bin/eval.rs lines
200-205).  `s` is the stream of `rand::random_range(0..max)` draws, `first`
the first draw (`specimen_one`); the loop keeps redrawing `s i, s (i+1), …`
until a draw differs from `first`.  `fuel` bounds how many redraws we
observe; `none` means the loop has not terminated within `fuel` redraws. -/
def distinct_loop (first : Nat) (s : Nat → Nat) : Nat → Nat → Option Nat
  | _, 0 => none
  | i, fuel+1 =>
    if s i = first then distinct_loop first s (i+1) fuel else some (s i)

/-- src/bin/eval.rs `make_distinct` (lines 197-208): first draw is `s 0`,
the loop consumes `s 1, s 2, …`. -/
def make_distinct (s : Nat → Nat) (fuel : Nat) : Option (Nat × Nat) :=
  (distinct_loop (s 0) s 1 fuel).map (fun two => (s 0, two))

theorem distinct_loop_some_spec {s : Nat → Nat} {first : Nat} :
    ∀ (fuel i v : Nat), distinct_loop first s i fuel = some v →
      v ≠ first ∧ ∃ k, i ≤ k ∧ v = s k := by
  intro fuel
  induction fuel with
  | zero => intro i v h; simp [distinct_loop] at h
  | succ n ih =>
    intro i v h
    by_cases hc : s i = first
    · simp only [distinct_loop, hc, if_pos] at h
      obtain ⟨hv, k, hk, hvk⟩ := ih (i+1) v h
      exact ⟨hv, k, by omega, hvk⟩
    · simp only [distinct_loop, hc, if_neg, if_false, Option.some_inj] at h
      exact ⟨h ▸ hc, i, le_refl i, h.symm⟩

theorem distinct_loop_halts {s : Nat → Nat} {first : Nat} :
    ∀ (fuel i k : Nat), i ≤ k → k < i + fuel → s k ≠ first →
      ∃ v, distinct_loop first s i fuel = some v := by
  intro fuel
  induction fuel with
  | zero => intro i k h1 h2 h3; omega
  | succ n ih =>
    intro i k h1 h2 h3
    by_cases hc : s i = first
    · have hne : i ≠ k := fun he => h3 (he ▸ hc)
      obtain ⟨v, hv⟩ := ih (i+1) k (by omega) (by omega) h3
      exact ⟨v, by simp only [distinct_loop, hc, if_pos]; exact hv⟩
    · exact ⟨s i, by simp only [distinct_loop, hc, if_neg, if_false]⟩

theorem distinct_loop_stuck {s : Nat → Nat} {first : Nat}
    (hall : ∀ i, s i = first) :
    ∀ (fuel i : Nat), distinct_loop first s i fuel = none := by
  intro fuel
  induction fuel with
  | zero => intro i; rfl
  | succ n ih => intro i; simp only [distinct_loop, hall i, if_pos]; exact ih (i+1)

/-- C9: with `max ≥ 2` draws bounded by `max`, as soon as some redraw
differs from the first draw `make_distinct` terminates with a pair of
distinct indices each below `max`; with `max = 1` every draw equals the
first draw, so the reject-and-resample loop never terminates. -/
theorem make_distinct_spec :
    (∀ (max : Nat) (s : Nat → Nat) (n : Nat), 2 ≤ max → (∀ i, s i < max) →
      1 ≤ n → s n ≠ s 0 →
      ∃ fuel p, make_distinct s fuel = some p ∧
        p.1 ≠ p.2 ∧ p.1 < max ∧ p.2 < max) ∧
    (∀ (s : Nat → Nat) (fuel : Nat), (∀ i, s i < 1) →
      make_distinct s fuel = none) := by
  constructor
  · intro max s n hmax hbound hn hne
    obtain ⟨v, hv⟩ := distinct_loop_halts n 1 n hn (by omega) hne
    obtain ⟨hvne, k, hk, hvk⟩ := distinct_loop_some_spec n 1 v hv
    refine ⟨n, (s 0, v), ?_, ?_, hbound 0, ?_⟩
    · simp [make_distinct, hv]
    · exact fun he => hvne he.symm
    · exact hvk ▸ hbound k
  · intro s fuel hone
    have hz : ∀ i, s i = s 0 := by
      intro i
      have h1 := hone i
      have h2 := hone 0
      omega
    simp [make_distinct, distinct_loop_stuck hz fuel 1]

/-- A stream alternating 0,1,0,1,… (models draws from `0..2`). -/
def altStream (i : Nat) : Nat := i % 2

/-- A stream that always draws 0 (the only possible draw from `0..1`). -/
def zeroStream (_ : Nat) : Nat := 0

/-- C9 witness: both halves of `make_distinct_spec` at concrete streams. -/
theorem make_distinct_spec_witness :
    (∃ fuel p, make_distinct altStream fuel = some p ∧
      p.1 ≠ p.2 ∧ p.1 < 2 ∧ p.2 < 2) ∧
    make_distinct zeroStream 7 = none := by
  constructor
  · exact make_distinct_spec.1 2 altStream 1 (by decide)
      (fun i => Nat.mod_lt i (by decide)) (by decide) (by decide)
  · exact make_distinct_spec.2 zeroStream 7 (fun i => by simp [zeroStream])

/-- C4: every entry of `interleave(a, b)` (before any jiggle) equals the
corresponding entry of `a` or of `b`, for every baseline draw; the two
masks built from the same baseline are complementary. -/
theorem interleave_entry_from_parent (a b baseline : List ℚ)
    (hab : a.length = b.length) (hbl : baseline.length = a.length) :
    ∀ i, i < a.length →
      (((interleave a b baseline).getD i 0 = a.getD i 0 ∨
        (interleave a b baseline).getD i 0 = b.getD i 0) ∧
       (lower_elem baseline (1/2)).getD i false
         = !((greater_equal_elem baseline (1/2)).getD i false)) := by
  intro i hi
  have hbl' : i < baseline.length := by omega
  have hbb : i < b.length := by omega
  have hil : i < (interleave a b baseline).length := by
    simp only [interleave, mask_where, addT, lower_elem, greater_equal_elem,
      zeros_like, List.length_zipWith, List.length_zip, List.length_map]
    omega
  have hll : i < (lower_elem baseline (1/2)).length := by
    simp only [lower_elem, List.length_map]; omega
  have hgl : i < (greater_equal_elem baseline (1/2)).length := by
    simp only [greater_equal_elem, List.length_map]; omega
  rw [List.getD_eq_getElem _ _ hil, List.getD_eq_getElem _ _ hi,
    List.getD_eq_getElem _ _ hbb, List.getD_eq_getElem _ _ hll,
    List.getD_eq_getElem _ _ hgl]
  simp only [interleave, mask_where, addT, lower_elem, greater_equal_elem,
    zeros_like, List.getElem_zipWith, List.getElem_zip, List.getElem_map]
  by_cases hc : baseline[i] < (2:ℚ)⁻¹
  · refine ⟨Or.inr ?_, ?_⟩
    · simp [hc, not_le.mpr hc]
    · simp [hc, not_le.mpr hc]
  · refine ⟨Or.inl ?_, ?_⟩
    · simp [hc, not_lt.mp hc]
    · simp [hc, not_lt.mp hc]

/-- C4 witness: a concrete interleave with mixed mask outcomes. -/
theorem interleave_entry_from_parent_witness :
    ((interleave [3, 5] [7, 9] [0, 1]).getD 0 0 = ([3, 5] : List ℚ).getD 0 0 ∨
     (interleave [3, 5] [7, 9] [0, 1]).getD 0 0 = ([7, 9] : List ℚ).getD 0 0) := by
  exact (interleave_entry_from_parent [3, 5] [7, 9] [0, 1] rfl rfl 0 (by decide)).1

/-- C5: of the 15 equally likely draws in `make_offspring`, 5 select
interleave, 4 average, 1 combine, 1 layer swap, 2 jiggle-of-mother and
2 jiggle-of-father. -/
theorem make_offspring_mode_counts :
    ((List.range 15).filter (fun r => make_offspring_mode r = some ReproMode.iw)).length = 5 ∧
    ((List.range 15).filter (fun r => make_offspring_mode r = some ReproMode.aw)).length = 4 ∧
    ((List.range 15).filter (fun r => make_offspring_mode r = some ReproMode.combine)).length = 1 ∧
    ((List.range 15).filter (fun r => make_offspring_mode r = some ReproMode.layers)).length = 1 ∧
    ((List.range 15).filter (fun r => make_offspring_mode r = some ReproMode.jiggleMother)).length = 2 ∧
    ((List.range 15).filter (fun r => make_offspring_mode r = some ReproMode.jiggleFather)).length = 2 := by
  decide

/-- The σ scale step function of the best fitness, inlined in
`make_new_generation` (src/bin/eval.rs lines 136-147). -/
def scale_factor (best_score : ℚ) : ℚ :=
  if best_score < 1/2 then 15/100
  else if best_score < 3/4 then 75/1000
  else if best_score < 9/10 then 5/100
  else if best_score < 95/100 then 2/100
  else SMALLEST_SD

/-- The genome operations `make_new_generation` consumes: `max_amp` is the
genome's largest parameter magnitude, `mk_offspring k m f d` is the
offspring `make_offspring(&m, &f, &d)` produces for offspring slot `k`
(the slot index stands for that call's private random draws). -/
structure GenomeOps (A : Type) where
  max_amp : A → ℚ
  mk_offspring : Nat → A → A → Distr → A

/-- Model of `(best_proportion * len as f32) as usize`: truncation of the product,
exact at the population sizes the program uses. -/
def numFittest (p : ℚ) (n : Nat) : Nat := (Int.floor (p * (n : ℚ))).toNat

/-- The σ from src/bin/eval.rs lines 135-147:
`ais_w_score[0].1.max_amp() as f64 * (step of ais_w_score[0].0)`. -/
def generation_std_deviation {A : Type} (ops : GenomeOps A)
    (ais_w_score : List (ℚ × A)) (dflt : A) : ℚ :=
  ops.max_amp (ais_w_score.headD (0, dflt)).2
    * scale_factor (ais_w_score.headD (0, dflt)).1

/-- src/bin/eval.rs `make_new_generation` (lines 129-170).  `fresh k` is the
`k`-th freshly random genome `ai_maker(device)` returns, `picks k` the pair
`make_distinct(number_of_fittest)` returns for offspring slot `k`, and
`dflt` an arbitrary inhabitant standing in for out-of-range indexing (never
reached under the bounds the program guarantees). -/
def make_new_generation {A : Type} (ops : GenomeOps A)
    (ais_w_score : List (ℚ × A)) (fresh : Nat → A) (picks : Nat → Nat × Nat)
    (best_proportion : ℚ) (dflt : A) : List A :=
  let distribution := Distr.Normal 0 (generation_std_deviation ops ais_w_score dflt)
  let number_of_fittest := numFittest best_proportion ais_w_score.length
  let best_ones := (ais_w_score.take number_of_fittest).map Prod.snd
  let randoms := (List.range ALWAYS_RAND_COUNT).map fresh
  let off_count := ais_w_score.length - best_ones.length - randoms.length
  let offspring := (List.range off_count).map (fun k =>
    ops.mk_offspring k (best_ones.getD (picks k).1 dflt)
      (best_ones.getD (picks k).2 dflt) distribution)
  randoms ++ offspring ++ best_ones

/-- C1: when the fixed random count plus the elite count fit in the
population (always true at the program's population sizes), the next
generation has exactly the population's size. -/
theorem make_new_generation_preserves_length {A : Type} (ops : GenomeOps A)
    (ais_w_score : List (ℚ × A)) (fresh : Nat → A) (picks : Nat → Nat × Nat)
    (best_proportion : ℚ) (dflt : A)
    (h : ALWAYS_RAND_COUNT + numFittest best_proportion ais_w_score.length
          ≤ ais_w_score.length) :
    (make_new_generation ops ais_w_score fresh picks best_proportion dflt).length
      = ais_w_score.length := by
  unfold make_new_generation
  simp only [List.length_append, List.length_map, List.length_range,
    List.length_take]
  unfold ALWAYS_RAND_COUNT at h ⊢
  omega

/-- The genome operations of the witnesses: genomes are naturals. -/
def opsN : GenomeOps Nat where
  max_amp := fun _ => 1
  mk_offspring := fun _ a b _ => a + b

/-- A concrete scored population of size 10, sorted by score descending. -/
def scoredExample : List (ℚ × Nat) :=
  [(9/10, 40), (4/5, 41), (7/10, 42), (3/5, 43), (1/2, 44),
   (2/5, 45), (3/10, 46), (1/5, 47), (1/10, 48), (0, 49)]

theorem numFittest_example : numFittest BEST_PROPORTION 10 = 2 := by
  unfold numFittest BEST_PROPORTION
  norm_num
  decide

theorem scoredExample_fit :
    ALWAYS_RAND_COUNT + numFittest BEST_PROPORTION scoredExample.length
      ≤ scoredExample.length := by
  have hlen : scoredExample.length = 10 := rfl
  rw [hlen, numFittest_example]
  decide

/-- C1 witness: the hypothesis and conclusion at the concrete population. -/
theorem make_new_generation_preserves_length_witness :
    ALWAYS_RAND_COUNT + numFittest BEST_PROPORTION scoredExample.length
        ≤ scoredExample.length ∧
    (make_new_generation opsN scoredExample (fun _ => 0) (fun _ => (0, 1))
        BEST_PROPORTION 0).length = scoredExample.length :=
  ⟨scoredExample_fit,
   make_new_generation_preserves_length opsN scoredExample (fun _ => 0)
     (fun _ => (0, 1)) BEST_PROPORTION 0 scoredExample_fit⟩

/-- C2: for a population sorted by fitness descending, every one of the top
`floor(best_proportion * N)` genomes appears value-equal among the members
of the next generation. -/
theorem elites_survive_into_new_generation {A : Type} (ops : GenomeOps A)
    (ais_w_score : List (ℚ × A)) (fresh : Nat → A) (picks : Nat → Nat × Nat)
    (best_proportion : ℚ) (dflt : A)
    (hsorted : ais_w_score.Pairwise (fun x y => y.1 ≤ x.1))
    (hfit : ALWAYS_RAND_COUNT + numFittest best_proportion ais_w_score.length
          ≤ ais_w_score.length) :
    ∀ g ∈ (ais_w_score.take
        (numFittest best_proportion ais_w_score.length)).map Prod.snd,
      g ∈ make_new_generation ops ais_w_score fresh picks best_proportion dflt := by
  intro g hg
  unfold make_new_generation
  exact List.mem_append_right _ hg

/-- C2 witness: the top genome of the concrete population is a member of
the next generation. -/
theorem elites_survive_into_new_generation_witness :
    (40 : Nat) ∈ make_new_generation opsN scoredExample (fun _ => 0)
      (fun _ => (0, 1)) BEST_PROPORTION 0 := by
  have hlen : scoredExample.length = 10 := rfl
  refine elites_survive_into_new_generation opsN scoredExample (fun _ => 0)
    (fun _ => (0, 1)) BEST_PROPORTION 0 ?_ scoredExample_fit 40 ?_
  · norm_num [scoredExample, List.pairwise_cons]
  · rw [hlen, numFittest_example]
    decide

/-- C3: σ is `max_amp(bestGenome)` times a step function of the best
fitness whose values are 0.15 below 0.5, 0.075 below 0.75, 0.05 below 0.9,
0.02 below 0.95 and 0.01 from 0.95 on; the step function is non-increasing
and in particular drops strictly from 0.49 to 0.51. -/
theorem scale_factor_step_behavior :
    (∀ {A : Type} (ops : GenomeOps A) (ais : List (ℚ × A)) (dflt : A),
      generation_std_deviation ops ais dflt
        = ops.max_amp (ais.headD (0, dflt)).2
            * scale_factor (ais.headD (0, dflt)).1) ∧
    (∀ s : ℚ, s < 1/2 → scale_factor s = 15/100) ∧
    (∀ s : ℚ, 1/2 ≤ s → s < 3/4 → scale_factor s = 75/1000) ∧
    (∀ s : ℚ, 3/4 ≤ s → s < 9/10 → scale_factor s = 5/100) ∧
    (∀ s : ℚ, 9/10 ≤ s → s < 95/100 → scale_factor s = 2/100) ∧
    (∀ s : ℚ, 95/100 ≤ s → scale_factor s = 1/100) ∧
    (∀ s t : ℚ, s ≤ t → scale_factor t ≤ scale_factor s) ∧
    scale_factor (49/100) > scale_factor (51/100) := by
  refine ⟨fun ops ais dflt => rfl, ?_, ?_, ?_, ?_, ?_, ?_, ?_⟩
  · intro s hs
    unfold scale_factor
    rw [if_pos hs]
  · intro s hs1 hs2
    unfold scale_factor
    rw [if_neg (not_lt.mpr hs1), if_pos hs2]
  · intro s hs1 hs2
    unfold scale_factor
    rw [if_neg (by linarith : ¬s < 1/2), if_neg (not_lt.mpr hs1), if_pos hs2]
  · intro s hs1 hs2
    unfold scale_factor
    rw [if_neg (by linarith : ¬s < 1/2), if_neg (by linarith : ¬s < 3/4),
      if_neg (not_lt.mpr hs1), if_pos hs2]
  · intro s hs
    unfold scale_factor SMALLEST_SD
    rw [if_neg (by linarith : ¬s < 1/2), if_neg (by linarith : ¬s < 3/4),
      if_neg (by linarith : ¬s < 9/10), if_neg (not_lt.mpr hs)]
  · intro s t hst
    unfold scale_factor SMALLEST_SD
    split_ifs <;> linarith
  · have h49 : scale_factor (49/100) = 15/100 := by
      unfold scale_factor
      rw [if_pos (by norm_num : (49:ℚ)/100 < 1/2)]
    have h51 : scale_factor (51/100) = 75/1000 := by
      unfold scale_factor
      rw [if_neg (by norm_num : ¬(51:ℚ)/100 < 1/2),
        if_pos (by norm_num : (51:ℚ)/100 < 3/4)]
    rw [h49, h51]
    norm_num

/-- C3 witness: the step values and monotonicity at concrete fitnesses. -/
theorem scale_factor_step_behavior_witness :
    scale_factor (2/5) = 15/100 ∧ scale_factor 1 = 1/100 ∧
    scale_factor 1 ≤ scale_factor 0 := by
  obtain ⟨-, h1, -, -, -, h5, h6, -⟩ := scale_factor_step_behavior
  exact ⟨h1 (2/5) (by norm_num), h5 1 (by norm_num), h6 0 1 (by norm_num)⟩

/-- src/small_ai.rs `SmallAI` (lines 11-16): three linear layers, declared
in the order input, output, hidden.  Layer contents are abstract here:
only whole-layer provenance matters for the layer-swap operator. -/
structure SmallAI (L : Type) where
  input : L
  output : L
  hidden : L

/-- The ordered layer list of a `SmallAI`, in declaration order. -/
def SmallAI.layerList {L : Type} (g : SmallAI L) : List L :=
  [g.input, g.output, g.hidden]

/-- src/small_ai.rs `offspring_layers` (lines 52-59) before the trailing
`.jiggle(d)`: input and hidden from `self`, output from `other_parent`. -/
def SmallAI.offspring_layers_pre {L : Type} (self other : SmallAI L) :
    SmallAI L :=
  { input := self.input, output := other.output, hidden := self.hidden }

/-- src/small_ai.rs `offspring_layers` including the jiggle pass `jig`. -/
def SmallAI.offspring_layers {L : Type} (self other : SmallAI L)
    (jig : SmallAI L → SmallAI L) : SmallAI L :=
  jig (self.offspring_layers_pre other)

/-- src/ai.rs `AI` (lines 9-16, called `BigAI` by its callers): five linear
layers declared in the order input, output, hidden_1, hidden_2, hidden_3. -/
structure BigAI (L : Type) where
  input : L
  output : L
  hidden_1 : L
  hidden_2 : L
  hidden_3 : L

/-- The ordered layer list of a `BigAI`, in declaration order. -/
def BigAI.layerList {L : Type} (g : BigAI L) : List L :=
  [g.input, g.output, g.hidden_1, g.hidden_2, g.hidden_3]

/-- src/ai.rs `offspring_layers` (lines 169-178) before the trailing
`.jiggle(d)`: input, hidden_1, hidden_3 from `self`; output, hidden_2 from
`other_parent`. -/
def BigAI.offspring_layers_pre {L : Type} (self other : BigAI L) : BigAI L :=
  { input := self.input, output := other.output, hidden_1 := self.hidden_1,
    hidden_2 := other.hidden_2, hidden_3 := self.hidden_3 }

/-- src/ai.rs `offspring_layers` including the jiggle pass `jig`. -/
def BigAI.offspring_layers {L : Type} (self other : BigAI L)
    (jig : BigAI L → BigAI L) : BigAI L :=
  jig (self.offspring_layers_pre other)

/-- C7: for both genome types, before the jiggle pass `offspring_layers`
assigns whole layers from the two parents alternately over the declared
layer order: 1st from the mother, 2nd from the father, 3rd from the
mother, and so on. -/
theorem offspring_layers_alternates :
    (∀ {L : Type} (a b : SmallAI L) (dflt : L) (i : Nat), i < 3 →
      (a.offspring_layers_pre b).layerList.getD i dflt
        = (if i % 2 = 0 then a.layerList else b.layerList).getD i dflt) ∧
    (∀ {L : Type} (a b : BigAI L) (dflt : L) (i : Nat), i < 5 →
      (a.offspring_layers_pre b).layerList.getD i dflt
        = (if i % 2 = 0 then a.layerList else b.layerList).getD i dflt) := by
  constructor
  · intro L a b dflt i hi
    interval_cases i <;> rfl
  · intro L a b dflt i hi
    interval_cases i <;> rfl

/-- C7 witness: the second layer of a concrete swap comes from the father. -/
theorem offspring_layers_alternates_witness :
    ((SmallAI.mk 10 11 12).offspring_layers_pre
        (SmallAI.mk 20 21 22)).layerList.getD 1 0
      = (if 1 % 2 = 0 then (SmallAI.mk 10 11 12 : SmallAI Nat).layerList
         else (SmallAI.mk 20 21 22).layerList).getD 1 0 :=
  offspring_layers_alternates.1 (SmallAI.mk 10 11 12) (SmallAI.mk 20 21 22)
    0 1 (by decide)

/-- src/bin/eval.rs line 106:
`ISLAND_POPULATION - (ISLAND_POPULATION as f32 * BEST_PROPORTION) as usize`. -/
def fittest_start : Nat :=
  ISLAND_POPULATION - numFittest BEST_PROPORTION ISLAND_POPULATION

theorem numFittest_island : numFittest BEST_PROPORTION ISLAND_POPULATION = 25 := by
  unfold numFittest BEST_PROPORTION ISLAND_POPULATION
  norm_num
  decide

/-- One migration event of `island_crossing` (src/bin/eval.rs lines
117-126).  `best` is the elite slice `island[fittest_start..]` of every
island; `s` and `fuel` drive `make_distinct(island_count)`; `mIdx`, `fIdx`
and `slot` are the three remaining `rand::random_range` draws; `mk` is
`make_offspring` with that call's private draws folded in; `dflt` stands
in for out-of-range indexing. -/
def island_crossing_event {A : Type} (islands : List (List A))
    (s : Nat → Nat) (fuel mIdx fIdx slot : Nat)
    (mk : A → A → Distr → A) (dflt : A) : Option (List (List A)) :=
  let best := islands.map (fun island => island.drop fittest_start)
  (make_distinct s fuel).map (fun pair =>
    let mother := (best.getD pair.1 []).getD mIdx dflt
    let father := (best.getD pair.2 []).getD fIdx dflt
    let offspring := mk mother father (Distr.Normal 0 SMALLEST_SD)
    islands.set pair.1 ((islands.getD pair.1 []).set slot offspring))

/-- C8: a migration event that runs picked two distinct islands, built the
offspring with the fixed `Normal(0, 1/100)` distribution (not any adaptive
σ), and replaced one slot of the mother's island; every other island is
unchanged. -/
theorem island_crossing_event_spec {A : Type} (islands : List (List A))
    (s : Nat → Nat) (fuel mIdx fIdx slot : Nat)
    (mk : A → A → Distr → A) (dflt : A) (out : List (List A))
    (hbound : ∀ i, s i < islands.length)
    (hrun : island_crossing_event islands s fuel mIdx fIdx slot mk dflt
      = some out) :
    ∃ mi fi, make_distinct s fuel = some (mi, fi) ∧
      mi ≠ fi ∧ mi < islands.length ∧ fi < islands.length ∧
      out = islands.set mi ((islands.getD mi []).set slot
        (mk (((islands.map (fun island => island.drop fittest_start)).getD
                mi []).getD mIdx dflt)
            (((islands.map (fun island => island.drop fittest_start)).getD
                fi []).getD fIdx dflt)
            (Distr.Normal 0 (1/100)))) ∧
      out.length = islands.length ∧
      (∀ j, j ≠ mi → out.getD j [] = islands.getD j []) := by
  unfold island_crossing_event at hrun
  match hloop : distinct_loop (s 0) s 1 fuel with
  | none =>
    rw [make_distinct, hloop] at hrun
    simp at hrun
  | some v =>
    obtain ⟨hvne, k, hk, hvk⟩ := distinct_loop_some_spec fuel 1 v hloop
    have hmd : make_distinct s fuel = some (s 0, v) := by
      rw [make_distinct, hloop]
      rfl
    rw [hmd] at hrun
    simp only [Option.map_some', Option.some_inj] at hrun
    refine ⟨s 0, v, hmd, fun he => hvne he.symm, hbound 0, hvk ▸ hbound k,
      ?_, ?_, ?_⟩
    · rw [← hrun]
      rfl
    · rw [← hrun]
      simp
    · intro j hj
      rw [← hrun]
      simp only [List.getD_eq_getElem?_getD]
      rw [List.getElem?_set_ne (fun he => hj he.symm)]

/-- C8 witness: two islands of two genomes each, with the alternating
stream selecting islands 0 and 1. -/
theorem island_crossing_event_spec_witness :
    ∃ mi fi, make_distinct altStream 1 = some (mi, fi) ∧ mi ≠ fi ∧
      mi < ([[5, 6], [7, 8]] : List (List Nat)).length ∧
      fi < ([[5, 6], [7, 8]] : List (List Nat)).length := by
  have hbound : ∀ i, altStream i < ([[5, 6], [7, 8]] : List (List Nat)).length :=
    fun i => Nat.mod_lt i (by decide)
  have hrun : island_crossing_event ([[5, 6], [7, 8]] : List (List Nat))
      altStream 1 0 0 0 (fun a b _ => a + b) 0
      = some [[0, 6], [7, 8]] := by
    unfold island_crossing_event fittest_start
    rw [numFittest_island]
    rfl
  obtain ⟨mi, fi, h1, h2, h3, h4, -, -, -⟩ :=
    island_crossing_event_spec [[5, 6], [7, 8]] altStream 1 0 0 0
      (fun a b _ => a + b) 0 [[0, 6], [7, 8]] hbound hrun
  exact ⟨mi, fi, h1, h2, h3, h4⟩

/-- Rust `%` on `usize`: remainder, panicking on a zero divisor. -/
def rustMod (a b : Nat) : Option Nat :=
  if b = 0 then none else some (a % b)

/-- The cycling fill loop of `resume_island` (src/bin/eval.rs lines
189-191): `initial[i] = loaded_best[i % loaded_best.len()]` for `i` in
`0..count` (`k` counts the remaining iterations). -/
def resume_fill {A : Type} (loaded : List A) (dflt : A) :
    List A → Nat → Nat → Option (List A)
  | acc, _, 0 => some acc
  | acc, i, k+1 =>
    match rustMod i loaded.length with
    | none => none
    | some j => resume_fill loaded dflt (acc.set i (loaded.getD j dflt)) (i+1) k

/-- src/bin/eval.rs `resume_island` (lines 172-195): `initial` is the
freshly random island, `loaded` the genomes loaded from the checkpoint
records; the elite share of slots is filled by cycling through `loaded`,
every slot is paired with score `0.`, and one generation-fill pass runs. -/
def resume_island {A : Type} (ops : GenomeOps A) (initial loaded : List A)
    (fresh : Nat → A) (picks : Nat → Nat × Nat) (dflt : A) :
    Option (List A) :=
  (resume_fill loaded dflt initial 0
      (numFittest BEST_PROPORTION ISLAND_POPULATION)).map
    (fun filled =>
      make_new_generation ops (filled.map (fun ai => ((0 : ℚ), ai))) fresh
        picks BEST_PROPORTION dflt)

/-- C10: resuming with an empty loaded-best list computes `0 % 0` on the
first fill iteration and panics (models Rust's remainder-by-zero panic):
the result is a crash, not an error value or a fresh random population. -/
theorem resume_island_empty_crashes {A : Type} (ops : GenomeOps A)
    (initial : List A) (fresh : Nat → A) (picks : Nat → Nat × Nat)
    (dflt : A) :
    rustMod 0 ([] : List A).length = none ∧
    resume_island ops initial [] fresh picks dflt = none := by
  refine ⟨rfl, ?_⟩
  unfold resume_island
  rw [numFittest_island]
  rfl

/-- Class `[A-Za-z]` of the regex in src/base_ai.rs line 166. -/
def isAlphaCh (c : Char) : Bool :=
  (decide (65 ≤ c.toNat) && decide (c.toNat ≤ 90)) ||
  (decide (97 ≤ c.toNat) && decide (c.toNat ≤ 122))

/-- Class `[A-Z a-z]` of the same regex: letters or a space. -/
def isNameCh (c : Char) : Bool :=
  isAlphaCh c || decide (c.toNat = 32)

/-- Class `[0-9]` of the same regex. -/
def isDigitCh (c : Char) : Bool :=
  decide (48 ≤ c.toNat) && decide (c.toNat ≤ 57)

/-- Value of the captured digit run (`parse::<usize>()`). -/
def digitsVal (ds : List Char) : Nat :=
  ds.foldl (fun acc c => 10 * acc + (c.toNat - 48)) 0

/-- Match `[A-Za-z]+_[A-Z a-z]+_(?<seq>[0-9]+)\.mpk` at the head of `cs`,
returning the captured sequence number.  Every character class of this
pattern is followed by a delimiter outside the class, so the regex
engine's greedy repetition is forced and no backtracking arises. -/
def matchSeqAt (cs : List Char) : Option Nat :=
  match cs.takeWhile isAlphaCh, cs.dropWhile isAlphaCh with
  | [], _ => none
  | _ :: _, '_' :: r2 =>
    match r2.takeWhile isNameCh, r2.dropWhile isNameCh with
    | [], _ => none
    | _ :: _, '_' :: r4 =>
      match r4.takeWhile isDigitCh, r4.dropWhile isDigitCh with
      | [], _ => none
      | ds, r5 =>
        if List.isPrefixOf ['.', 'm', 'p', 'k'] r5 then some (digitsVal ds)
        else none
    | _, _ => none
  | _, _ => none

/-- Unanchored leftmost search of the pattern (`Regex::captures`). -/
def searchSeq : List Char → Option Nat
  | [] => none
  | c :: rest =>
    match matchSeqAt (c :: rest) with
    | some n => some n
    | none => searchSeq rest

/-- src/base_ai.rs `extract_seq` (lines 168-176): `none` models the
panicking `unwrap`s on a failed regex match. -/
def extract_seq (filename : List Char) : Option Nat :=
  searchSeq filename

/-- The sort comparator of `list` (src/base_ai.rs line 157):
`extract_seq(a).cmp(&extract_seq(b)).reverse()`; it panics (`none`) as
soon as `extract_seq` panics on either stripped base name. -/
def cmpSeq (a b : List Char) : Option Ordering :=
  match extract_seq a, extract_seq b with
  | some sa, some sb => some ((compare sa sb).swap)
  | _, _ => none

/-- Insertion step of a comparator-driven sort, in the panic monad. -/
def insertSortedM (a : List Char) :
    List (List Char) → Option (List (List Char))
  | [] => some [a]
  | b :: l =>
    match cmpSeq a b with
    | none => none
    | some Ordering.gt =>
      match insertSortedM a l with
      | none => none
      | some t => some (b :: t)
    | some _ => some (a :: b :: l)

/-- Comparator-driven insertion sort in the panic monad: like Rust's
`sort_by`, it calls the comparator on element pairs and panics iff a
comparison panics (any element of a list of length ≥ 2 is compared at
least once). -/
def sortByM : List (List Char) → Option (List (List Char))
  | [] => some []
  | a :: l =>
    match sortByM l with
    | none => none
    | some t => insertSortedM a t

/-- The `"best_{network_name}_"` / `".mpk"` filename filter and suffix
strip of `list` (src/base_ai.rs lines 144-151). -/
def savedBase (networkName fname : List Char) : Option (List Char) :=
  let pre := ['b', 'e', 's', 't', '_'] ++ networkName ++ ['_']
  if List.isPrefixOf pre fname && List.isSuffixOf ['.', 'm', 'p', 'k'] fname
  then some (fname.take (fname.length - 4))
  else none

/-- src/base_ai.rs `ListableAI::list` (lines 136-162): keep the directory
entries matching the pattern, strip `.mpk`, sort by extracted sequence
number descending, truncate to 30.  The comparator runs `extract_seq` on
the STRIPPED base names, and `extract_seq` panics when its regex (which
requires a literal `.mpk`) fails. -/
def list (entries : List (List Char)) (networkName : List Char) :
    Option (List (List Char)) :=
  match sortByM (entries.filterMap (savedBase networkName)) with
  | none => none
  | some sorted => some (sorted.take 30)

/-- C6 (against the claim): a record whose sequence number is unparsable
is not skipped — `extract_seq` panics inside the sort comparator, so the
whole listing fails; with the `.mpk` suffix stripped before sorting even
well-formed names fail the regex. -/
theorem list_panics_on_malformed :
    extract_seq (String.toList ("best_small_abc")) = none ∧
    extract_seq (String.toList ("best_small_5")) = none ∧
    extract_seq (String.toList ("best_small_5.mpk")) = some 5 ∧
    list [String.toList ("best_small_5.mpk"),
          String.toList ("best_small_abc.mpk")]
      (String.toList ("small")) = none := by
  refine ⟨?_, ?_, ?_, ?_⟩ <;> rfl
